import Mathlib

/-!
Shallow embedding of the transaction-fetch protocol of `monzo_api/src/api_calls.py`
(`_fetch_chunk`, `fetch_transactions`, `_to_timestamp`, `CHUNK_SIZE_DAYS`,
`SCAExpiredError`), together with proofs of the specification's claims about it.

Modelling conventions:
* Timestamps (`datetime` values) are integers counting microseconds since the
  epoch — the resolution of Python `datetime`; `timedelta(seconds=1)` is
  `usPerSecond` and `timedelta(days=n)` is `n * usPerDay`.
* `_to_timestamp` renders a datetime as a fixed-width string with millisecond
  precision (`strftime("%Y-%m-%dT%H:%M:%S.%f")[:-3] + "Z"`); that rendering is an
  order-preserving injection of the millisecond-truncated time, so it is modelled
  as truncation to the millisecond: `toTimestamp`.
* The HTTP client is a pure response function `Query → Response` (the spec's
  "fixed upstream response function"); a `Response` is a 2xx body (the parsed
  `transactions` list), a 400, a 403, or any other non-2xx status (on which
  `raise_for_status` raises, modelled as `ChunkResult.raised`).
* `Transaction` keeps only the two payload fields the fetch protocol reads:
  `id` (the dedup key) and `created` (the ordering/cursor key); the remaining
  fields of `models.Transaction` are never inspected by `_fetch_chunk` or
  `fetch_transactions` and are dropped from the embedding.
* The two `while` loops are fuel-indexed: `ChunkResult.fuelOut` /
  `FetchResult.fuelOut` mean the fuel ran out, and the termination claim shows
  enough fuel always exists for `_fetch_chunk`'s loop over a finite upstream.
* Progress-bar updates (`rich.progress`) are purely observational and omitted;
  `total_days`/`total_chunks` feed only the progress bar and are omitted with
  them.
-/

namespace Monzo

/-- Microseconds in one second: `timedelta(seconds=1)`. -/
def usPerSecond : Int := 1000000

/-- Microseconds in one day: `timedelta(days=1)`. -/
def usPerDay : Int := 86400 * 1000000

/-- `CHUNK_SIZE_DAYS = 364  # Monzo API limit is 365 days`. -/
def CHUNK_SIZE_DAYS : Int := 364

/-- `_to_timestamp`: rendering to the millisecond-precision wire format, modelled
as truncation of the microsecond count to the millisecond below. -/
def toTimestamp (t : Int) : Int := t - Int.emod t 1000

/-- The projection of `models.Transaction` read by the fetch protocol:
`id` (dedup key) and `created` (ordering and cursor key). -/
structure Transaction where
  id : String
  created : Int
deriving DecidableEq, Repr

/-- The projection of `models.Account` read by `fetch_transactions`:
`id` and the nullable `created` timestamp. -/
structure Account where
  id : String
  created : Option Int
deriving DecidableEq, Repr

/-- One `GET /transactions` request issued by `_fetch_chunk`: the varying query
parameters (`account_id`, `limit`, `since`, `before`).  The constant
`expand[]=merchant` parameter is omitted.  `since` and `before` carry
`toTimestamp`-rendered values. -/
structure Query where
  account_id : String
  limit : Nat
  since : Int
  before : Int
deriving DecidableEq, Repr

/-- The upstream's answer to one transactions request: a 2xx body (the parsed
`transactions` list, `[]` when the key is missing), HTTP 400, HTTP 403, or any
other non-2xx status (on which `resp.raise_for_status()` raises). -/
inductive Response where
  | ok (transactions : List Transaction)
  | badRequest
  | forbidden
  | otherError
deriving DecidableEq, Repr

/-- A fixed upstream response function. -/
def Client : Type := Query → Response

/-- Outcome of `_fetch_chunk`: the `(txs, sca_expired)` pair together with the
final contents of the mutated `seen_ids` set, or a propagated
`raise_for_status` exception, or fuel exhaustion of the embedding. -/
inductive ChunkResult where
  | out (txs : List Transaction) (seen : List String) (scaExpired : Bool)
  | raised
  | fuelOut
deriving DecidableEq, Repr

/-- `max(new, key=lambda t: t.created).created` for a nonempty `new`
(only the `created` component of the maximum is ever used). -/
def newestCreated : List Transaction → Int
  | [] => 0
  | t :: ts => ts.foldl (fun m u => max m u.created) t.created

/-- The `while True` loop of `_fetch_chunk` (lines 82–117): one fuel unit per
iteration.  State: the current `cursor`, the accumulated `txs`, and the
`seen_ids` set (modelled as the list of ids in insertion order). -/
def fetchChunkLoop (client : Client) (accountId : String) (beforeTs : Int) :
    Int → List Transaction → List String → Nat → ChunkResult
  | _, _, _, 0 => .fuelOut
  | cursor, txs, seen, fuel + 1 =>
    match client { account_id := accountId, limit := 100, since := cursor, before := beforeTs } with
    | .forbidden => .out txs seen true
    | .badRequest => .out txs seen false
    | .otherError => .raised
    | .ok raw =>
      if raw.isEmpty then
        .out txs seen false
      else
        let new := raw.filter fun t => decide (t.id ∉ seen)
        if new.isEmpty then
          .out txs seen false
        else
          fetchChunkLoop client accountId beforeTs
            (toTimestamp (newestCreated new - usPerSecond))
            (txs ++ new) (seen ++ new.map fun t => t.id) fuel

/-- `_fetch_chunk`: initialises `txs = []`, `cursor = _to_timestamp(since)`,
`before_str = _to_timestamp(before)` and runs the pagination loop. -/
def fetchChunk (client : Client) (accountId : String) (since before : Int)
    (seenIds : List String) (fuel : Nat) : ChunkResult :=
  fetchChunkLoop client accountId (toTimestamp before) (toTimestamp since) [] seenIds fuel

/-- The sequence of `GET /transactions` requests issued by `_fetch_chunk`'s
loop from a given state: the observable request trace of `fetchChunkLoop`,
following the same control flow. -/
def fetchChunkQueries (client : Client) (accountId : String) (beforeTs : Int) :
    Int → List String → Nat → List Query
  | _, _, 0 => []
  | cursor, seen, fuel + 1 =>
    { account_id := accountId, limit := 100, since := cursor, before := beforeTs } ::
      match client { account_id := accountId, limit := 100, since := cursor, before := beforeTs } with
      | .forbidden => []
      | .badRequest => []
      | .otherError => []
      | .ok raw =>
        if raw.isEmpty then
          []
        else
          let new := raw.filter fun t => decide (t.id ∉ seen)
          if new.isEmpty then
            []
          else
            fetchChunkQueries client accountId beforeTs
              (toTimestamp (newestCreated new - usPerSecond))
              (seen ++ new.map fun t => t.id) fuel

/-- Outcome of `fetch_transactions`: the returned list, the raised
`SCAExpiredError`, a propagated `raise_for_status` exception, or fuel
exhaustion of the embedding. -/
inductive FetchResult where
  | ok (txs : List Transaction)
  | scaError
  | httpError
  | fuelOut
deriving DecidableEq, Repr

/-- The sort key relation of `all_txs.sort(key=lambda t: t.created)`. -/
def createdLe (a b : Transaction) : Prop := a.created ≤ b.created

instance : DecidableRel createdLe := fun a b =>
  inferInstanceAs (Decidable (a.created ≤ b.created))

instance : IsTotal Transaction createdLe :=
  ⟨fun a b => Int.le_total a.created b.created⟩

instance : IsTrans Transaction createdLe :=
  ⟨fun _ _ _ h₁ h₂ => le_trans h₁ h₂⟩

/-- `all_txs.sort(key=lambda t: t.created)`: a stable ascending sort by
`created` (Python's sort is stable; any stable sort computes the same list). -/
def sortByCreated (l : List Transaction) : List Transaction :=
  l.insertionSort createdLe

/-- `start` as computed at lines 143–150: `account.created or now - 364 days`,
then `max(now - days, account_created)` when `days` is given. -/
def startDate (account : Account) (days : Option Int) (now : Int) : Int :=
  let accountCreated := account.created.getD (now - CHUNK_SIZE_DAYS * usPerDay)
  match days with
  | some d => max (now - d * usPerDay) accountCreated
  | none => accountCreated

/-- The `while chunk_start < now` loop of `fetch_transactions` (lines 165–185):
one fuel unit per chunk; the chunk loop receives the current fuel as its own
budget.  State: `chunk_start`, the accumulated `all_txs`, and `seen_ids`. -/
def fetchLoop (client : Client) (accountId : String) (now : Int) :
    Int → List Transaction → List String → Nat → FetchResult
  | _, _, _, 0 => .fuelOut
  | chunkStart, allTxs, seenIds, fuel + 1 =>
    if chunkStart < now then
      match fetchChunk client accountId chunkStart
          (min (chunkStart + CHUNK_SIZE_DAYS * usPerDay) (now + usPerDay))
          seenIds (fuel + 1) with
      | .fuelOut => .fuelOut
      | .raised => .httpError
      | .out txs seenIds' scaExpired =>
        if scaExpired then
          if (allTxs ++ txs).isEmpty then .scaError
          else .ok (sortByCreated (allTxs ++ txs))
        else
          fetchLoop client accountId now
            (min (chunkStart + CHUNK_SIZE_DAYS * usPerDay) (now + usPerDay))
            (allTxs ++ txs) seenIds' fuel
    else
      .ok (sortByCreated allTxs)

/-- `fetch_transactions` (lines 120–185, progress reporting omitted). -/
def fetchTransactions (client : Client) (account : Account) (days : Option Int)
    (now : Int) (fuel : Nat) : FetchResult :=
  fetchLoop client account.id now (startDate account days now) [] [] fuel

/-- The chunk windows `(chunk_start, chunk_end)` enumerated by the
`while chunk_start < now` loop, with `chunk_end = min(chunk_start + 364 days,
now + 1 day)`; on a 403 the loop stops early, so the windows actually requested
are a prefix of this list. -/
def chunkWindows (now chunkStart : Int) : List (Int × Int) :=
  if chunkStart < now then
    (chunkStart, min (chunkStart + CHUNK_SIZE_DAYS * usPerDay) (now + usPerDay)) ::
      chunkWindows now (min (chunkStart + CHUNK_SIZE_DAYS * usPerDay) (now + usPerDay))
  else
    []
termination_by (now - chunkStart).toNat
decreasing_by
  simp only [CHUNK_SIZE_DAYS, usPerDay]
  omega

/-- The transaction-id list of a successful result (`none` for errors):
what a caller can observe of the returned ids. -/
def okIds : FetchResult → Option (List String)
  | .ok txs => some (txs.map fun t => t.id)
  | _ => none

/-- An upstream returning an empty page for every request. -/
def emptyClient : Client := fun _ => .ok []

/-- An upstream answering 403 to every request. -/
def forbiddenClient : Client := fun _ => .forbidden

/-- An upstream answering 400 to every request. -/
def badRequestClient : Client := fun _ => .badRequest

/-- A sample transaction created at the epoch. -/
def sampleTx : Transaction := ⟨"tx_1", 0⟩

/-- Account created 800 days before `now = 0`: its full history spans three
364-day chunks. -/
def sampleAccount : Account := ⟨"acc_1", some (0 - 800 * usPerDay)⟩

/-- Upstream for the truncated fetch at `now = 0` on `sampleAccount`: the first
chunk serves `sampleTx` (and then only duplicates of it); every later chunk
answers 403. -/
def truncClient : Client := fun q =>
  if q.since = toTimestamp (0 - 800 * usPerDay) then .ok [sampleTx]
  else if q.since = toTimestamp (sampleTx.created - usPerSecond) then .ok [sampleTx]
  else .forbidden

/-- Like `truncClient` but completing normally: every later chunk is empty. -/
def fullClient : Client := fun q =>
  if q.since = toTimestamp (0 - 800 * usPerDay) then .ok [sampleTx]
  else if q.since = toTimestamp (sampleTx.created - usPerSecond) then .ok [sampleTx]
  else .ok []

/-- An upstream serving the same single-transaction page forever: the cursor
stops advancing, and only the seen-set check stops pagination. -/
def oneTxClient : Client := fun _ => .ok [sampleTx]

/-- Upstream whose first page holds an already-seen record (`"a"`, newest in
the page) alongside a new one (`"b"`, older): distinguishes "newest in page"
from "newest new record". -/
def pageClient : Client := fun q =>
  if q.since = 0 then .ok [⟨"a", 5000000⟩, ⟨"b", 3000000⟩] else .ok []

/-- Upstream for the 400-tolerance scenario at `now = 0` on `sampleAccount`:
the middle chunk serves `sampleTx` (then only duplicates); the first and last
chunks answer 400. -/
def skipClient : Client := fun q =>
  if q.since = toTimestamp (0 - 436 * usPerDay) then .ok [sampleTx]
  else if q.since = toTimestamp (sampleTx.created - usPerSecond) then .ok [sampleTx]
  else .badRequest

theorem fetchChunkLoop_forbidden {client : Client} {accountId : String} {beforeTs cursor : Int}
    (txs : List Transaction) (seen : List String) (fuel : Nat)
    (hq : client { account_id := accountId, limit := 100, since := cursor, before := beforeTs }
      = .forbidden) :
    fetchChunkLoop client accountId beforeTs cursor txs seen (fuel + 1) = .out txs seen true := by
  simp only [fetchChunkLoop, hq]

theorem fetchChunkLoop_badRequest {client : Client} {accountId : String} {beforeTs cursor : Int}
    (txs : List Transaction) (seen : List String) (fuel : Nat)
    (hq : client { account_id := accountId, limit := 100, since := cursor, before := beforeTs }
      = .badRequest) :
    fetchChunkLoop client accountId beforeTs cursor txs seen (fuel + 1) = .out txs seen false := by
  simp only [fetchChunkLoop, hq]

theorem fetchChunkLoop_okEmpty {client : Client} {accountId : String} {beforeTs cursor : Int}
    (txs : List Transaction) (seen : List String) (fuel : Nat)
    (hq : client { account_id := accountId, limit := 100, since := cursor, before := beforeTs }
      = .ok []) :
    fetchChunkLoop client accountId beforeTs cursor txs seen (fuel + 1) = .out txs seen false := by
  simp only [fetchChunkLoop, hq, List.isEmpty_nil, if_true]

theorem fetchChunkLoop_onePageThenDup {client : Client} {accountId : String}
    {beforeTs cursor : Int} {t : Transaction}
    (txs : List Transaction) (seen : List String) (fuel : Nat)
    (hmem : t.id ∉ seen)
    (hq1 : client { account_id := accountId, limit := 100, since := cursor, before := beforeTs }
      = .ok [t])
    (hq2 : client
        { account_id := accountId, limit := 100, since := toTimestamp (t.created - usPerSecond), before := beforeTs }
      = .ok [t]) :
    fetchChunkLoop client accountId beforeTs cursor txs seen (fuel + 2)
      = .out (txs ++ [t]) (seen ++ [t.id]) false := by
  have h4 : fuel + 2 = (fuel + 1) + 1 := rfl
  rw [h4]
  simp only [fetchChunkLoop, hq1]
  rw [show List.filter (fun x => decide (x.id ∉ seen)) [t] = [t] from by simp [hmem]]
  simp only [List.isEmpty_cons, List.isEmpty_nil, Bool.false_eq_true, if_false, newestCreated,
    List.foldl_nil, List.map_cons, List.map_nil]
  simp only [fetchChunkLoop, hq2]
  rw [show List.filter (fun x => decide (x.id ∉ seen ++ [t.id])) [t] = [] from by simp]
  simp

/-- Loop invariant of `_fetch_chunk`'s pagination loop: on normal completion the
accumulated transactions extend the input by some `delta`, `seen_ids` grows by
exactly the ids of `delta`, and (when every upstream page has pairwise distinct
ids) no-duplication of `seen_ids` is preserved. -/
theorem fetchChunkLoop_out_spec {client : Client} {accountId : String} {beforeTs : Int}
    (hpages : ∀ q ts, client q = .ok ts → (ts.map (fun t => t.id)).Nodup) :
    ∀ {fuel : Nat} {cursor : Int} {txs txs' : List Transaction} {seen seen' : List String}
      {sca : Bool},
      fetchChunkLoop client accountId beforeTs cursor txs seen fuel = .out txs' seen' sca →
      ∃ delta, txs' = txs ++ delta ∧ seen' = seen ++ delta.map (fun t => t.id) ∧
        (seen.Nodup → seen'.Nodup) := by
  intro fuel
  induction fuel with
  | zero =>
    intro cursor txs txs' seen seen' sca h
    simp [fetchChunkLoop] at h
  | succ fuel ih =>
    intro cursor txs txs' seen seen' sca h
    rw [fetchChunkLoop] at h
    cases hc : client { account_id := accountId, limit := 100, since := cursor, before := beforeTs } with
    | forbidden =>
      simp only [hc] at h
      injection h with h1 h2 h3
      exact ⟨[], by simp [h1], by simp [h2], fun hn => h2 ▸ hn⟩
    | badRequest =>
      simp only [hc] at h
      injection h with h1 h2 h3
      exact ⟨[], by simp [h1], by simp [h2], fun hn => h2 ▸ hn⟩
    | otherError =>
      simp only [hc] at h
      exact absurd h (by simp)
    | ok raw =>
      simp only [hc] at h
      by_cases hraw : raw.isEmpty
      · rw [if_pos hraw] at h
        injection h with h1 h2 h3
        exact ⟨[], by simp [h1], by simp [h2], fun hn => h2 ▸ hn⟩
      · rw [if_neg hraw] at h
        by_cases hnew : (raw.filter fun t => decide (t.id ∉ seen)).isEmpty
        · rw [if_pos hnew] at h
          injection h with h1 h2 h3
          exact ⟨[], by simp [h1], by simp [h2], fun hn => h2 ▸ hn⟩
        · rw [if_neg hnew] at h
          obtain ⟨delta, hd1, hd2, hd3⟩ := ih h
          refine ⟨(raw.filter fun t => decide (t.id ∉ seen)) ++ delta,
            by simp [hd1], by simp [hd2], fun hn => ?_⟩
          apply hd3
          rw [List.nodup_append]
          refine ⟨hn, ?_, ?_⟩
          · exact List.Nodup.sublist
              (List.Sublist.map (fun t : Transaction => t.id) (List.filter_sublist raw))
              (hpages _ raw hc)
          · intro x hx hx'
            obtain ⟨t, ht, rfl⟩ := List.mem_map.mp hx'
            have := (List.mem_filter.mp ht).2
            simp only [decide_eq_true_iff] at this
            exact this hx
  

/-- Every list returned by the fetch loop — whether all chunks completed or a
403 cut the fetch short — is sorted ascending by `created`. -/
theorem fetchLoop_ok_sorted {client : Client} {accountId : String} {now : Int} :
    ∀ {fuel : Nat} {chunkStart : Int} {allTxs : List Transaction} {seen : List String}
      {txs : List Transaction},
      fetchLoop client accountId now chunkStart allTxs seen fuel = .ok txs →
      txs.Sorted createdLe := by
  intro fuel
  induction fuel with
  | zero =>
    intro chunkStart allTxs seen txs h
    simp [fetchLoop] at h
  | succ fuel ih =>
    intro chunkStart allTxs seen txs h
    rw [fetchLoop] at h
    split at h
    · cases hfc : fetchChunk client accountId chunkStart
          (min (chunkStart + CHUNK_SIZE_DAYS * usPerDay) (now + usPerDay)) seen (fuel + 1) with
      | fuelOut =>
        simp only [hfc] at h
        exact absurd h (by simp)
      | raised =>
        simp only [hfc] at h
        exact absurd h (by simp)
      | out txs₀ seen₀ sca =>
        simp only [hfc] at h
        split at h
        · split at h
          · exact absurd h (by simp)
          · injection h with h1
            exact h1 ▸ List.sorted_insertionSort createdLe _
        · exact ih h
    · injection h with h1
      exact h1 ▸ List.sorted_insertionSort createdLe _

/-- Fetch-loop invariant: `seen_ids` is exactly the id list of the accumulated
transactions and stays duplicate-free; hence any returned list has
duplicate-free ids. -/
theorem fetchLoop_ok_nodup {client : Client} {accountId : String} {now : Int}
    (hpages : ∀ q ts, client q = .ok ts → (ts.map (fun t => t.id)).Nodup) :
    ∀ {fuel : Nat} {chunkStart : Int} {allTxs : List Transaction} {seen : List String}
      {txs : List Transaction},
      seen = allTxs.map (fun t => t.id) → seen.Nodup →
      fetchLoop client accountId now chunkStart allTxs seen fuel = .ok txs →
      (txs.map (fun t => t.id)).Nodup := by
  intro fuel
  induction fuel with
  | zero =>
    intro chunkStart allTxs seen txs hseen hnd h
    simp [fetchLoop] at h
  | succ fuel ih =>
    intro chunkStart allTxs seen txs hseen hnd h
    rw [fetchLoop] at h
    split at h
    · cases hfc : fetchChunk client accountId chunkStart
          (min (chunkStart + CHUNK_SIZE_DAYS * usPerDay) (now + usPerDay)) seen (fuel + 1) with
      | fuelOut =>
        simp only [hfc] at h
        exact absurd h (by simp)
      | raised =>
        simp only [hfc] at h
        exact absurd h (by simp)
      | out txs₀ seen₀ sca =>
        obtain ⟨delta, hd1, hd2, hd3⟩ := fetchChunkLoop_out_spec hpages hfc
        simp only [List.nil_append] at hd1
        subst hd1
        have hseen₀ : seen₀ = (allTxs ++ txs₀).map (fun t => t.id) := by
          simp [hd2, hseen]
        have hnd₀ : seen₀.Nodup := hd3 hnd
        simp only [hfc] at h
        split at h
        · split at h
          · exact absurd h (by simp)
          · injection h with h1
            subst h1
            exact ((List.perm_insertionSort createdLe _).map (fun t => t.id)).nodup_iff.mpr
              (hseen₀ ▸ hnd₀)
        · exact ih hseen₀ hnd₀ h
    · injection h with h1
      subst h1
      exact ((List.perm_insertionSort createdLe _).map (fun t => t.id)).nodup_iff.mpr
        (hseen ▸ hnd)


/-- C1: for every account and requested window, the list returned by
`fetch_transactions` contains no two transactions with the same id — for any
upstream whose individual pages have pairwise distinct ids (ids are globally
unique upstream), however chunk and page boundaries fall and however many
transactions share a `created` timestamp; the seen-ID set is scoped to the
whole fetch. -/
theorem claimC1_no_duplicate_ids (client : Client) (account : Account) (days : Option Int)
    (now : Int) (fuel : Nat) (txs : List Transaction)
    (hpages : ∀ q ts, client q = .ok ts → (ts.map (fun t => t.id)).Nodup)
    (h : fetchTransactions client account days now fuel = .ok txs) :
    (txs.map (fun t => t.id)).Nodup :=
  fetchLoop_ok_nodup hpages (by simp) (by simp) h

theorem claimC1_witness :
    (([sampleTx] : List Transaction).map (fun t => t.id)).Nodup :=
  claimC1_no_duplicate_ids fullClient sampleAccount none 0 8 [sampleTx]
    (fun q ts h => by
      unfold fullClient at h
      split_ifs at h <;> (injection h with h1; subst h1; simp))
    (by decide)

/-- C3: every list returned by `fetch_transactions` is sorted ascending by the
`created` timestamp, including fetches cut short by authorization decay,
regardless of chunk processing order or same-timestamp arrival order. -/
theorem claimC3_sorted_by_created (client : Client) (account : Account) (days : Option Int)
    (now : Int) (fuel : Nat) (txs : List Transaction)
    (h : fetchTransactions client account days now fuel = .ok txs) :
    txs.Sorted createdLe :=
  fetchLoop_ok_sorted h

theorem claimC3_witness : List.Sorted createdLe [sampleTx] :=
  claimC3_sorted_by_created truncClient sampleAccount none 0 8 [sampleTx] (by decide)


/-- C2: when a chunk request returns 403 — if zero transactions have been
accumulated across the whole fetch, `fetch_transactions` raises
`SCAExpiredError` (first conjunct: an upstream that always answers 403); if at
least one transaction has been accumulated, it stops issuing requests and
returns the accumulated transactions as a success (second conjunct: a first
chunk that yields `t`, then a 403 on the next chunk). -/
theorem claimC2_forbidden_sca :
    (∀ (client : Client) (account : Account) (days : Option Int) (now : Int) (fuel : Nat),
      (∀ q, client q = .forbidden) →
      startDate account days now < now →
      fetchTransactions client account days now (fuel + 1) = .scaError)
    ∧
    (∀ (client : Client) (aid : String) (now : Int) (t : Transaction) (fuel : Nat),
      client { account_id := aid, limit := 100, since := toTimestamp (now - 800 * usPerDay),
               before := toTimestamp (now - 436 * usPerDay) } = .ok [t] →
      client { account_id := aid, limit := 100, since := toTimestamp (t.created - usPerSecond),
               before := toTimestamp (now - 436 * usPerDay) } = .ok [t] →
      client { account_id := aid, limit := 100, since := toTimestamp (now - 436 * usPerDay),
               before := toTimestamp (now - 72 * usPerDay) } = .forbidden →
      fetchTransactions client ⟨aid, some (now - 800 * usPerDay)⟩ none now (fuel + 2)
        = .ok [t]) := by
  constructor
  · intro client account days now fuel hforb hlt
    rw [fetchTransactions, fetchLoop, if_pos hlt]
    have hch : fetchChunk client account.id (startDate account days now)
        (min (startDate account days now + CHUNK_SIZE_DAYS * usPerDay) (now + usPerDay))
        [] (fuel + 1) = .out [] [] true := by
      rw [fetchChunk]
      exact fetchChunkLoop_forbidden [] [] fuel (hforb _)
    rw [hch]
    simp
  · intro client aid now t fuel h1 h2 h3
    have hstart : startDate ⟨aid, some (now - 800 * usPerDay)⟩ none now
        = now - 800 * usPerDay := rfl
    rw [fetchTransactions, hstart]
    rw [show fuel + 2 = (fuel + 1) + 1 from rfl, fetchLoop]
    rw [if_pos (show now - 800 * usPerDay < now by simp only [usPerDay]; omega)]
    have hmin1 : min (now - 800 * usPerDay + CHUNK_SIZE_DAYS * usPerDay) (now + usPerDay)
        = now - 436 * usPerDay := by
      simp only [CHUNK_SIZE_DAYS, usPerDay]; omega
    rw [hmin1]
    have hch1 : fetchChunk client aid (now - 800 * usPerDay) (now - 436 * usPerDay)
        [] ((fuel + 1) + 1) = .out [t] [t.id] false := by
      rw [fetchChunk]
      have := fetchChunkLoop_onePageThenDup [] [] fuel
        (by simp) h1 h2
      simpa using this
    rw [hch1]
    simp only
    have hmin2 : min (now - 436 * usPerDay + CHUNK_SIZE_DAYS * usPerDay) (now + usPerDay)
        = now - 72 * usPerDay := by
      simp only [CHUNK_SIZE_DAYS, usPerDay]; omega
    rw [fetchLoop]
    rw [if_pos (show now - 436 * usPerDay < now by simp only [usPerDay]; omega), hmin2]
    have hch2 : fetchChunk client aid (now - 436 * usPerDay) (now - 72 * usPerDay)
        [t.id] (fuel + 1) = .out [] [t.id] true := by
      rw [fetchChunk]
      exact fetchChunkLoop_forbidden [] [t.id] fuel h3
    rw [hch2]
    simp [sortByCreated, List.insertionSort, List.orderedInsert]


/-- C4: per-chunk pagination always terminates.  An empty page or a page with
zero new records ends the chunk, and every other iteration adds at least one
new id to the seen set; so when the upstream draws transaction ids from a
finite set `U`, fuel exceeding the number of unseen ids of `U` is never
exhausted — the `while` loop of `_fetch_chunk` cannot run forever, even when
the cursor stops advancing. -/
theorem claimC4_chunk_loop_terminates (client : Client) (accountId : String)
    (beforeTs : Int) (U : Finset String)
    (hU : ∀ q ts, client q = .ok ts → ∀ t ∈ ts, t.id ∈ U) :
    ∀ (fuel : Nat) (cursor : Int) (txs : List Transaction) (seen : List String),
      (U.filter fun s => s ∉ seen).card < fuel →
      fetchChunkLoop client accountId beforeTs cursor txs seen fuel ≠ .fuelOut := by
  intro fuel
  induction fuel with
  | zero =>
    intro cursor txs seen hcard
    exact absurd hcard (Nat.not_lt_zero _)
  | succ fuel ih =>
    intro cursor txs seen hcard
    rw [fetchChunkLoop]
    cases hc : client { account_id := accountId, limit := 100, since := cursor, before := beforeTs } with
    | forbidden => simp [hc]
    | badRequest => simp [hc]
    | otherError => simp [hc]
    | ok raw =>
      simp only [hc]
      by_cases hraw : raw.isEmpty
      · simp [hraw]
      · rw [if_neg hraw]
        by_cases hnew : (raw.filter fun t => decide (t.id ∉ seen)).isEmpty
        · rw [if_pos hnew]
          simp
        · rw [if_neg hnew]
          apply ih
          have hne : raw.filter (fun t => decide (t.id ∉ seen)) ≠ [] := by
            simpa using hnew
          obtain ⟨t₀, ht₀⟩ := List.exists_mem_of_ne_nil _ hne
          have ht₀raw : t₀ ∈ raw := (List.mem_filter.mp ht₀).1
          have ht₀seen : t₀.id ∉ seen := by
            have := (List.mem_filter.mp ht₀).2
            simpa using this
          have ht₀U : t₀.id ∈ U := hU _ raw hc t₀ ht₀raw
          have hsub : (U.filter fun s =>
                s ∉ seen ++ (raw.filter fun t => decide (t.id ∉ seen)).map (fun t => t.id))
              ⊆ (U.filter fun s => s ∉ seen) := by
            intro x hx
            simp only [Finset.mem_filter, List.mem_append] at hx ⊢
            exact ⟨hx.1, fun hmem => hx.2 (Or.inl hmem)⟩
          have hmemS : t₀.id ∈ U.filter (fun s => s ∉ seen) :=
            Finset.mem_filter.mpr ⟨ht₀U, ht₀seen⟩
          have hnotS : t₀.id ∉ U.filter (fun s =>
              s ∉ seen ++ (raw.filter fun t => decide (t.id ∉ seen)).map (fun t => t.id)) := by
            simp only [Finset.mem_filter, List.mem_append, not_and, not_not]
            intro _
            exact Or.inr (List.mem_map.mpr ⟨t₀, ht₀, rfl⟩)
          have hss := Finset.card_lt_card
            ((Finset.ssubset_iff_of_subset hsub).mpr ⟨t₀.id, hmemS, hnotS⟩)
          omega
  
theorem claimC4_witness :
    fetchChunkLoop oneTxClient "acc_1" 0 0 [] [] 2 ≠ .fuelOut :=
  claimC4_chunk_loop_terminates oneTxClient "acc_1" 0 {"tx_1"}
    (fun q ts h t ht => by
      unfold oneTxClient at h
      injection h with h1
      subst h1
      simp only [List.mem_singleton] at ht
      subst ht
      decide)
    2 0 [] [] (by decide)

theorem claimC2_witness :
    fetchTransactions forbiddenClient sampleAccount none 0 5 = .scaError
    ∧ fetchTransactions truncClient sampleAccount none 0 5 = .ok [sampleTx] :=
  ⟨claimC2_forbidden_sca.1 forbiddenClient sampleAccount none 0 4
      (fun _ => rfl) (by decide),
    claimC2_forbidden_sca.2 truncClient "acc_1" 0 sampleTx 3
      (by decide) (by decide) (by decide)⟩


/-- C5 as stated is false: with `"a"` already seen, the next request's `since`
is `toTimestamp(newest NEW record − 1 s) = 2000000`, not
`toTimestamp(newest record in the page − 1 s) = 4000000`. -/
theorem claimC5_counterexample :
    ((fetchChunkQueries pageClient "acc_1" 10000000 0 ["a"] 3).map fun q => q.since)[1]?
      = some 2000000
    ∧ toTimestamp (newestCreated [⟨"a", 5000000⟩, ⟨"b", 3000000⟩] - usPerSecond)
      = 4000000 := by
  constructor
  · decide
  · decide

/-- C5 (amended): after each page that yields new records, the `since` of the
next request in the chunk is the newest `created` among the page's NEW
(not-yet-seen) records minus one second — not that newest timestamp itself —
so same-timestamp siblings are re-fetched and filtered by the seen set rather
than skipped. -/
theorem claimC5_cursor_minus_one_second (client : Client) (accountId : String)
    (beforeTs cursor : Int) (seen : List String) (raw : List Transaction) (fuel : Nat)
    (hq : client { account_id := accountId, limit := 100, since := cursor, before := beforeTs }
      = .ok raw)
    (hne : ¬ raw.isEmpty)
    (hnew : ¬ (raw.filter fun t => decide (t.id ∉ seen)).isEmpty) :
    (fetchChunkQueries client accountId beforeTs cursor seen (fuel + 2))[1]? =
      some { account_id := accountId, limit := 100,
             since := toTimestamp
               (newestCreated (raw.filter fun t => decide (t.id ∉ seen)) - usPerSecond),
             before := beforeTs } := by
  rw [show fuel + 2 = (fuel + 1) + 1 from rfl, fetchChunkQueries]
  simp only [hq]
  rw [if_neg hne, if_neg hnew, fetchChunkQueries]
  simp

theorem claimC5_witness :
    (fetchChunkQueries pageClient "acc_1" 10000000 0 ["a"] 3)[1]? =
      some { account_id := "acc_1", limit := 100,
             since := toTimestamp
               (newestCreated ([⟨"a", 5000000⟩, ⟨"b", 3000000⟩].filter
                 fun t => decide (t.id ∉ ["a"])) - usPerSecond),
             before := 10000000 } :=
  claimC5_cursor_minus_one_second pageClient "acc_1" 10000000 0 ["a"]
    [⟨"a", 5000000⟩, ⟨"b", 3000000⟩] 1 (by decide) (by decide) (by decide)


/-- C6: an HTTP 400 abandons only the current chunk.  First conjunct: on a 400
the chunk loop returns the transactions already fetched for the chunk with no
error signal, and issues no further request within the chunk.  Second
conjunct: a fetch whose first and third chunks answer 400 still returns the
second chunk's transaction as a success — a 400 neither aborts the overall
fetch nor raises. -/
theorem claimC6_badRequest_abandons_chunk :
    (∀ (client : Client) (accountId : String) (beforeTs cursor : Int)
        (txs : List Transaction) (seen : List String) (fuel : Nat),
      client { account_id := accountId, limit := 100, since := cursor, before := beforeTs }
        = .badRequest →
      fetchChunkLoop client accountId beforeTs cursor txs seen (fuel + 1) = .out txs seen false
      ∧ fetchChunkQueries client accountId beforeTs cursor seen (fuel + 1)
        = [{ account_id := accountId, limit := 100, since := cursor, before := beforeTs }])
    ∧
    (∀ (client : Client) (aid : String) (now : Int) (t : Transaction) (fuel : Nat),
      client { account_id := aid, limit := 100, since := toTimestamp (now - 800 * usPerDay),
               before := toTimestamp (now - 436 * usPerDay) } = .badRequest →
      client { account_id := aid, limit := 100, since := toTimestamp (now - 436 * usPerDay),
               before := toTimestamp (now - 72 * usPerDay) } = .ok [t] →
      client { account_id := aid, limit := 100, since := toTimestamp (t.created - usPerSecond),
               before := toTimestamp (now - 72 * usPerDay) } = .ok [t] →
      client { account_id := aid, limit := 100, since := toTimestamp (now - 72 * usPerDay),
               before := toTimestamp (now + usPerDay) } = .badRequest →
      fetchTransactions client ⟨aid, some (now - 800 * usPerDay)⟩ none now (fuel + 4)
        = .ok [t]) := by
  constructor
  · intro client accountId beforeTs cursor txs seen fuel hq
    refine ⟨fetchChunkLoop_badRequest txs seen fuel hq, ?_⟩
    rw [fetchChunkQueries]
    simp [hq]
  · intro client aid now t fuel hb1 h1 h2 hb3
    have hstart : startDate ⟨aid, some (now - 800 * usPerDay)⟩ none now
        = now - 800 * usPerDay := rfl
    rw [fetchTransactions, hstart]
    rw [show fuel + 4 = (fuel + 3) + 1 from rfl, fetchLoop]
    rw [if_pos (show now - 800 * usPerDay < now by simp only [usPerDay]; omega)]
    have hmin1 : min (now - 800 * usPerDay + CHUNK_SIZE_DAYS * usPerDay) (now + usPerDay)
        = now - 436 * usPerDay := by
      simp only [CHUNK_SIZE_DAYS, usPerDay]; omega
    rw [hmin1]
    have hch1 : fetchChunk client aid (now - 800 * usPerDay) (now - 436 * usPerDay)
        [] ((fuel + 3) + 1) = .out [] [] false := by
      rw [fetchChunk]
      exact fetchChunkLoop_badRequest [] [] (fuel + 3) hb1
    rw [hch1]
    simp only
    have hmin2 : min (now - 436 * usPerDay + CHUNK_SIZE_DAYS * usPerDay) (now + usPerDay)
        = now - 72 * usPerDay := by
      simp only [CHUNK_SIZE_DAYS, usPerDay]; omega
    rw [fetchLoop]
    rw [if_pos (show now - 436 * usPerDay < now by simp only [usPerDay]; omega), hmin2]
    have hch2 : fetchChunk client aid (now - 436 * usPerDay) (now - 72 * usPerDay)
        [] ((fuel + 2) + 1) = .out [t] [t.id] false := by
      rw [fetchChunk]
      have := fetchChunkLoop_onePageThenDup [] [] (fuel + 1)
        (by simp) h1 h2
      simpa using this
    rw [hch2]
    simp only
    have hmin3 : min (now - 72 * usPerDay + CHUNK_SIZE_DAYS * usPerDay) (now + usPerDay)
        = now + usPerDay := by
      simp only [CHUNK_SIZE_DAYS, usPerDay]; omega
    rw [fetchLoop]
    rw [if_pos (show now - 72 * usPerDay < now by simp only [usPerDay]; omega), hmin3]
    have hch3 : fetchChunk client aid (now - 72 * usPerDay) (now + usPerDay)
        [t.id] ((fuel + 1) + 1) = .out [] [t.id] false := by
      rw [fetchChunk]
      exact fetchChunkLoop_badRequest [] [t.id] (fuel + 1) hb3
    rw [hch3]
    simp only
    rw [fetchLoop]
    rw [if_neg (show ¬ now + usPerDay < now by simp only [usPerDay]; omega)]
    simp [sortByCreated, List.insertionSort, List.orderedInsert]

theorem claimC6_witness :
    (fetchChunkLoop badRequestClient "acc_1" 0 0 [sampleTx] ["x"] 3
        = .out [sampleTx] ["x"] false
      ∧ fetchChunkQueries badRequestClient "acc_1" 0 0 ["x"] 3
        = [{ account_id := "acc_1", limit := 100, since := 0, before := 0 }])
    ∧ fetchTransactions skipClient sampleAccount none 0 6 = .ok [sampleTx] :=
  ⟨claimC6_badRequest_abandons_chunk.1 badRequestClient "acc_1" 0 0 [sampleTx] ["x"] 2 rfl,
    claimC6_badRequest_abandons_chunk.2 skipClient "acc_1" 0 sampleTx 2
      (by decide) (by decide) (by decide) (by decide)⟩

/-- Consecutive chunk windows are contiguous: each window's end is the next
window's start. -/
theorem chunkWindows_chain (now s : Int) :
    List.Chain' (fun a b : Int × Int => a.2 = b.1) (chunkWindows now s) := by
  by_cases h : s < now
  · rw [chunkWindows, if_pos h]
    refine List.chain'_cons'.mpr ⟨?_, chunkWindows_chain now
      (min (s + CHUNK_SIZE_DAYS * usPerDay) (now + usPerDay))⟩
    intro y hy
    rw [chunkWindows] at hy
    split at hy
    · simp only [List.head?_cons, Option.mem_some_iff] at hy
      subst hy
      rfl
    · simp at hy
  · rw [chunkWindows, if_neg h]
    exact List.chain'_nil
termination_by (now - s).toNat
decreasing_by
  simp only [CHUNK_SIZE_DAYS, usPerDay]
  omega

/-- Every chunk window has positive width of at most 364 days. -/
theorem chunkWindows_spans (now s : Int) (w : Int × Int) (hw : w ∈ chunkWindows now s) :
    0 < w.2 - w.1 ∧ w.2 - w.1 ≤ CHUNK_SIZE_DAYS * usPerDay := by
  by_cases h : s < now
  · rw [chunkWindows, if_pos h] at hw
    rcases List.mem_cons.mp hw with rfl | hw'
    · refine ⟨?_, ?_⟩ <;> (simp only [CHUNK_SIZE_DAYS, usPerDay]; omega)
    · exact chunkWindows_spans now _ w hw'
  · rw [chunkWindows, if_neg h] at hw
    simp at hw
termination_by (now - s).toNat
decreasing_by
  simp only [CHUNK_SIZE_DAYS, usPerDay]
  omega

/-- The chunk windows cover every point of `[chunkStart, now)`. -/
theorem chunkWindows_cover (now s x : Int) (hsx : s ≤ x) (hx : x < now) :
    ∃ w ∈ chunkWindows now s, w.1 ≤ x ∧ x < w.2 := by
  have h : s < now := lt_of_le_of_lt hsx hx
  rw [chunkWindows, if_pos h]
  by_cases hxe : x < min (s + CHUNK_SIZE_DAYS * usPerDay) (now + usPerDay)
  · exact ⟨_, List.mem_cons_self _ _, hsx, hxe⟩
  · obtain ⟨w, hw, h1, h2⟩ := chunkWindows_cover now
      (min (s + CHUNK_SIZE_DAYS * usPerDay) (now + usPerDay)) x (not_lt.mp hxe) hx
    exact ⟨w, List.mem_cons_of_mem _ hw, h1, h2⟩
termination_by (now - s).toNat
decreasing_by
  simp only [CHUNK_SIZE_DAYS, usPerDay]
  omega

/-- C7 as stated is false: the chunk windows do not exactly cut up
`[start, now)`.  For `start = 0`, `now = 1` the single requested window is
`(0, 86400000001)` — its end `min(start + 364 days, now + 1 day) = now + 1 day`
overshoots `now`, so the windows tile `[start, now + 1 day)` here, a strict
superset of `[start, now)`. -/
theorem claimC7_counterexample :
    chunkWindows 1 0 = [(0, 86400000001)] ∧ (1 : Int) < 86400000001 := by
  constructor
  · rw [chunkWindows]
    norm_num [CHUNK_SIZE_DAYS, usPerDay]
    rw [chunkWindows]
    norm_num
  · norm_num

/-- C7 (amended): the chunk windows enumerated by `fetch_transactions` are
contiguous and ordered oldest-to-newest (each end equals the next start, and
widths are positive), each spans at most 364 days (strictly less than 365),
the first starts at `start`, together they cover all of `[start, now)` (the
last end may exceed `now` by up to one day, as the counterexample shows), and
`start` is clamped to the account's creation time whenever the requested
`days` reach further back than the account has existed, without an error. -/
theorem claimC7_chunk_window_layout :
    (∀ now s, List.Chain' (fun a b : Int × Int => a.2 = b.1) (chunkWindows now s))
    ∧ (∀ now s w, w ∈ chunkWindows now s →
        0 < w.2 - w.1 ∧ w.2 - w.1 ≤ CHUNK_SIZE_DAYS * usPerDay)
    ∧ (∀ now s, s < now → (chunkWindows now s).head?
        = some (s, min (s + CHUNK_SIZE_DAYS * usPerDay) (now + usPerDay)))
    ∧ (∀ now s x, s ≤ x → x < now → ∃ w ∈ chunkWindows now s, w.1 ≤ x ∧ x < w.2)
    ∧ (∀ (i : String) (c d now : Int), now - d * usPerDay ≤ c →
        startDate ⟨i, some c⟩ (some d) now = c) := by
  refine ⟨chunkWindows_chain, chunkWindows_spans, ?_, chunkWindows_cover, ?_⟩
  · intro now s h
    rw [chunkWindows, if_pos h]
    rfl
  · intro i c d now h
    simp only [startDate, Option.getD_some]
    exact max_eq_right h

theorem claimC7_witness :
    ((chunkWindows 1 0).head?
      = some (0, min (0 + CHUNK_SIZE_DAYS * usPerDay) (1 + usPerDay)))
    ∧ (∃ w ∈ chunkWindows 1 0, w.1 ≤ 0 ∧ (0 : Int) < w.2)
    ∧ startDate ⟨"acc_1", some (-100)⟩ (some 200) 0 = -100 :=
  ⟨claimC7_chunk_window_layout.2.2.1 1 0 (by norm_num),
    claimC7_chunk_window_layout.2.2.2.1 1 0 0 le_rfl (by norm_num),
    claimC7_chunk_window_layout.2.2.2.2 "acc_1" (-100) 200 0
      (by norm_num [usPerDay])⟩


/-- C8: fetching the same account and window twice against the same unchanged
upstream response function yields identical transaction ID sets and, with the
final sort, the identical list: the embedded fetch protocol is a deterministic
function of the upstream responses, account, window and clock, with no per-run
state influencing the output. -/
theorem claimC8_idempotent (client : Client) (account : Account) (days : Option Int)
    (now : Int) (fuel : Nat) (r₁ r₂ : FetchResult)
    (h₁ : r₁ = fetchTransactions client account days now fuel)
    (h₂ : r₂ = fetchTransactions client account days now fuel) :
    okIds r₁ = okIds r₂ ∧ r₁ = r₂ := by
  subst h₁
  subst h₂
  exact ⟨rfl, rfl⟩

theorem claimC8_witness :
    okIds (fetchTransactions fullClient sampleAccount none 0 7)
      = okIds (fetchTransactions fullClient sampleAccount none 0 7)
    ∧ fetchTransactions fullClient sampleAccount none 0 7
      = fetchTransactions fullClient sampleAccount none 0 7 :=
  claimC8_idempotent fullClient sampleAccount none 0 7 _ _ rfl rfl

/-- C9 as stated is false: a fetch truncated by a 403 after partial data
(`truncClient`: its second chunk answers 403, third conjunct) returns a value
EQUAL to that of a complete fetch of the same data (`fullClient`): the caller
receives a bare `.ok [sampleTx]` with no flag, warning or any other
distinguishing observation. -/
theorem claimC9_counterexample :
    fetchTransactions truncClient sampleAccount none 0 6
      = fetchTransactions fullClient sampleAccount none 0 6
    ∧ fetchTransactions truncClient sampleAccount none 0 6 = .ok [sampleTx]
    ∧ truncClient { account_id := "acc_1", limit := 100,
                    since := toTimestamp (0 - 436 * usPerDay),
                    before := toTimestamp (0 - 72 * usPerDay) } = .forbidden :=
  ⟨by decide, by decide, by decide⟩

/-- C9 (amended): when a fetch is truncated by authorization decay after
partial data, `fetch_transactions` returns the partial list as a plain
success, indistinguishable from a complete fetch: any upstream `c₁` whose
first chunk yields `t` and whose second chunk answers 403 produces the very
same return value as any upstream `c₂` whose first chunk yields `t` and whose
remaining chunks are empty.  The `sca_expired` signal is consumed internally
and never reaches the caller. -/
theorem claimC9_no_truncation_flag (c₁ c₂ : Client) (aid : String) (now : Int)
    (t : Transaction) (fuel : Nat)
    (h1 : c₁ { account_id := aid, limit := 100, since := toTimestamp (now - 800 * usPerDay),
               before := toTimestamp (now - 436 * usPerDay) } = .ok [t])
    (h2 : c₁ { account_id := aid, limit := 100, since := toTimestamp (t.created - usPerSecond),
               before := toTimestamp (now - 436 * usPerDay) } = .ok [t])
    (h3 : c₁ { account_id := aid, limit := 100, since := toTimestamp (now - 436 * usPerDay),
               before := toTimestamp (now - 72 * usPerDay) } = .forbidden)
    (g1 : c₂ { account_id := aid, limit := 100, since := toTimestamp (now - 800 * usPerDay),
               before := toTimestamp (now - 436 * usPerDay) } = .ok [t])
    (g2 : c₂ { account_id := aid, limit := 100, since := toTimestamp (t.created - usPerSecond),
               before := toTimestamp (now - 436 * usPerDay) } = .ok [t])
    (g3 : c₂ { account_id := aid, limit := 100, since := toTimestamp (now - 436 * usPerDay),
               before := toTimestamp (now - 72 * usPerDay) } = .ok [])
    (g4 : c₂ { account_id := aid, limit := 100, since := toTimestamp (now - 72 * usPerDay),
               before := toTimestamp (now + usPerDay) } = .ok []) :
    fetchTransactions c₁ ⟨aid, some (now - 800 * usPerDay)⟩ none now (fuel + 4)
      = fetchTransactions c₂ ⟨aid, some (now - 800 * usPerDay)⟩ none now (fuel + 4) := by
  have hstart : startDate ⟨aid, some (now - 800 * usPerDay)⟩ none now
      = now - 800 * usPerDay := rfl
  have hmin1 : min (now - 800 * usPerDay + CHUNK_SIZE_DAYS * usPerDay) (now + usPerDay)
      = now - 436 * usPerDay := by
    simp only [CHUNK_SIZE_DAYS, usPerDay]; omega
  have hmin2 : min (now - 436 * usPerDay + CHUNK_SIZE_DAYS * usPerDay) (now + usPerDay)
      = now - 72 * usPerDay := by
    simp only [CHUNK_SIZE_DAYS, usPerDay]; omega
  have hmin3 : min (now - 72 * usPerDay + CHUNK_SIZE_DAYS * usPerDay) (now + usPerDay)
      = now + usPerDay := by
    simp only [CHUNK_SIZE_DAYS, usPerDay]; omega
  have hlt1 : now - 800 * usPerDay < now := by simp only [usPerDay]; omega
  have hlt2 : now - 436 * usPerDay < now := by simp only [usPerDay]; omega
  have hlt3 : now - 72 * usPerDay < now := by simp only [usPerDay]; omega
  have left : fetchTransactions c₁ ⟨aid, some (now - 800 * usPerDay)⟩ none now (fuel + 4)
      = .ok [t] := by
    rw [fetchTransactions, hstart]
    rw [show fuel + 4 = (fuel + 3) + 1 from rfl, fetchLoop, if_pos hlt1, hmin1]
    have hch1 : fetchChunk c₁ aid (now - 800 * usPerDay) (now - 436 * usPerDay)
        [] ((fuel + 3) + 1) = .out [t] [t.id] false := by
      rw [fetchChunk]
      have := fetchChunkLoop_onePageThenDup [] [] (fuel + 2)
        (by simp) h1 h2
      simpa using this
    rw [hch1]
    simp only
    rw [fetchLoop, if_pos hlt2, hmin2]
    have hch2 : fetchChunk c₁ aid (now - 436 * usPerDay) (now - 72 * usPerDay)
        [t.id] ((fuel + 2) + 1) = .out [] [t.id] true := by
      rw [fetchChunk]
      exact fetchChunkLoop_forbidden [] [t.id] (fuel + 2) h3
    rw [hch2]
    simp [sortByCreated, List.insertionSort, List.orderedInsert]
  have right : fetchTransactions c₂ ⟨aid, some (now - 800 * usPerDay)⟩ none now (fuel + 4)
      = .ok [t] := by
    rw [fetchTransactions, hstart]
    rw [show fuel + 4 = (fuel + 3) + 1 from rfl, fetchLoop, if_pos hlt1, hmin1]
    have hch1 : fetchChunk c₂ aid (now - 800 * usPerDay) (now - 436 * usPerDay)
        [] ((fuel + 3) + 1) = .out [t] [t.id] false := by
      rw [fetchChunk]
      have := fetchChunkLoop_onePageThenDup [] [] (fuel + 2)
        (by simp) g1 g2
      simpa using this
    rw [hch1]
    simp only
    rw [fetchLoop, if_pos hlt2, hmin2]
    have hch2 : fetchChunk c₂ aid (now - 436 * usPerDay) (now - 72 * usPerDay)
        [t.id] ((fuel + 2) + 1) = .out [] [t.id] false := by
      rw [fetchChunk]
      exact fetchChunkLoop_okEmpty [] [t.id] (fuel + 2) g3
    rw [hch2]
    simp only
    rw [fetchLoop, if_pos hlt3, hmin3]
    have hch3 : fetchChunk c₂ aid (now - 72 * usPerDay) (now + usPerDay)
        [t.id] ((fuel + 1) + 1) = .out [] [t.id] false := by
      rw [fetchChunk]
      exact fetchChunkLoop_okEmpty [] [t.id] (fuel + 1) g4
    rw [hch3]
    simp only
    rw [fetchLoop]
    rw [if_neg (show ¬ now + usPerDay < now by simp only [usPerDay]; omega)]
    simp [sortByCreated, List.insertionSort, List.orderedInsert]
  rw [left, right]

theorem claimC9_witness :
    fetchTransactions truncClient sampleAccount none 0 6
      = fetchTransactions fullClient sampleAccount none 0 6 :=
  claimC9_no_truncation_flag truncClient fullClient "acc_1" 0 sampleTx 2
    (by decide) (by decide) (by decide) (by decide) (by decide) (by decide) (by decide)

/-- C10: for an account whose `created` timestamp is absent, a `days = None`
fetch sets the window start to `now − 364 days` (the `account.created or
now - timedelta(days=CHUNK_SIZE_DAYS)` default), and the resulting chunk
sequence is the single window `[now − 364 days, now)` — at most the last 364
days, not the account's entire history, and no error is raised. -/
theorem claimC10_missing_created_default (account : Account) (now : Int)
    (hc : account.created = none) :
    startDate account none now = now - CHUNK_SIZE_DAYS * usPerDay
    ∧ chunkWindows now (startDate account none now)
      = [(now - CHUNK_SIZE_DAYS * usPerDay, now)] := by
  have h1 : startDate account none now = now - CHUNK_SIZE_DAYS * usPerDay := by
    simp [startDate, hc]
  refine ⟨h1, ?_⟩
  rw [h1, chunkWindows]
  rw [if_pos (show now - CHUNK_SIZE_DAYS * usPerDay < now by
    simp only [CHUNK_SIZE_DAYS, usPerDay]; omega)]
  have hmin : min (now - CHUNK_SIZE_DAYS * usPerDay + CHUNK_SIZE_DAYS * usPerDay)
      (now + usPerDay) = now := by
    simp only [CHUNK_SIZE_DAYS, usPerDay]; omega
  rw [hmin, chunkWindows, if_neg (lt_irrefl now)]

theorem claimC10_witness :
    startDate ⟨"acc_1", none⟩ none 0 = 0 - CHUNK_SIZE_DAYS * usPerDay
    ∧ chunkWindows 0 (startDate ⟨"acc_1", none⟩ none 0)
      = [(0 - CHUNK_SIZE_DAYS * usPerDay, 0)] :=
  claimC10_missing_created_default ⟨"acc_1", none⟩ 0 rfl

end Monzo
